import Mathlib

/-!
Verification development for the go-authkit repository: a shallow embedding of
the authkit package (types.go, password.go, jwt/user/auth logic) together with
theorems about its token lifecycle, user directory and password hashing.

Modelling conventions:
* Go `interface\x7b\x7d` values (dynamic values / decoded JSON) are modelled by the
  inductive `GoValue`; the Go dynamic types `[]string` and `[]interface\x7b\x7d` are
  distinct constructors, exactly as they are distinct for Go type assertions.
* Go maps whose iteration order the code never relies on are modelled as
  association lists.
* Clock reads (`time.Now()`), fresh UUIDs and bcrypt salts are passed as
  explicit arguments; times are whole seconds (`Int`), Go durations are
  nanoseconds (`Int`).  `int64(d.Seconds())` truncates toward zero, which is
  `Int.tdiv` by 10^9.
* JWT signing (HMAC over header.payload) is modelled symbolically: a signature
  records the algorithm, key and signing input, and verification compares them
  structurally (a collision-free MAC assumption).
* bcrypt hashes are modelled as self-describing strings `$2a$cost$salt$pw`
  mirroring the information content of a real bcrypt hash (version, cost,
  salt, digest); the digest is represented by the password itself, which is
  adequate because the code only ever feeds hashes back to bcrypt comparison.
-/

namespace Authkit

/-- Dynamic Go values (`interface\x7b\x7d`), as produced by JSON decoding or written
literally in Go code.  `vStrList` is the Go dynamic type `[]string`;
`vList` is `[]interface\x7b\x7d` (what a JSON decoder produces for arrays). -/
inductive GoValue where
  | vStr (s : String)
  | vInt (n : Int)
  | vBool (b : Bool)
  | vStrList (xs : List String)
  | vList (xs : List GoValue)
  | vMap (kvs : List (String × GoValue))
  | vNull
deriving Repr

mutual

/-- Structural boolean equality on dynamic values. -/
def GoValue.beq : GoValue → GoValue → Bool
  | .vStr a, .vStr b => a == b
  | .vInt a, .vInt b => a == b
  | .vBool a, .vBool b => a == b
  | .vStrList a, .vStrList b => a == b
  | .vList a, .vList b => GoValue.beqList a b
  | .vMap a, .vMap b => GoValue.beqKVs a b
  | .vNull, .vNull => true
  | _, _ => false

/-- Pointwise boolean equality on lists of dynamic values. -/
def GoValue.beqList : List GoValue → List GoValue → Bool
  | [], [] => true
  | a :: as, b :: bs => GoValue.beq a b && GoValue.beqList as bs
  | _, _ => false

/-- Pointwise boolean equality on key/value lists of dynamic values. -/
def GoValue.beqKVs : List (String × GoValue) → List (String × GoValue) → Bool
  | [], [] => true
  | (k1, v1) :: as, (k2, v2) :: bs => k1 == k2 && GoValue.beq v1 v2 && GoValue.beqKVs as bs
  | _, _ => false

end

mutual

/-- Image of a dynamic Go value under JSON marshalling followed by decoding
into `interface\x7b\x7d`: `[]string` becomes a JSON array of strings. -/
def normJSON : GoValue → GoValue
  | .vStrList xs => .vList (xs.map .vStr)
  | .vList xs => .vList (normList xs)
  | .vMap kvs => .vMap (normKVs kvs)
  | .vStr s => .vStr s
  | .vInt n => .vInt n
  | .vBool b => .vBool b
  | .vNull => .vNull

/-- JSON normalisation mapped over a list. -/
def normList : List GoValue → List GoValue
  | [] => []
  | x :: xs => normJSON x :: normList xs

/-- JSON normalisation mapped over the values of a key/value list. -/
def normKVs : List (String × GoValue) → List (String × GoValue)
  | [] => []
  | (k, v) :: xs => (k, normJSON v) :: normKVs xs

end

/-- Errors of the authkit package: the sentinel error values declared in
types.go, plus the errors of golang.org/x/crypto/bcrypt that
`bcrypt.GenerateFromPassword` can return (`InvalidCostError`,
`ErrPasswordTooLong`). -/
inductive GoError where
  | errUserNotFound
  | errInvalidPassword
  | errUserAlreadyExists
  | errInvalidToken
  | errTokenExpired
  | errUnauthorized
  | errInsufficientRole
  | bcryptInvalidCost (cost : Int)
  | bcryptPasswordTooLong
deriving Repr, DecidableEq

/-- Value of bcrypt.MinCost in golang.org/x/crypto/bcrypt. -/
def bcryptMinCost : Int := 4

/-- Value of bcrypt.MaxCost in golang.org/x/crypto/bcrypt. -/
def bcryptMaxCost : Int := 31

/-- Value of bcrypt.DefaultCost in golang.org/x/crypto/bcrypt. -/
def bcryptDefaultCost : Int := 10

/-- Symbolic bcrypt hash string: version, cost, salt and the hashed password
(standing for the digest). -/
def bcryptEncode (cost : Int) (salt : Nat) (pw : String) : String :=
  "$2a$" ++ toString cost ++ "$" ++ toString salt ++ "$" ++ pw

/-- Splits a character list on the dollar sign (for parsing a hash string). -/
def splitDollar : List Char → List (List Char)
  | [] => [[]]
  | c :: cs =>
    let r := splitDollar cs
    if c = '$' then [] :: r
    else
      match r with
      | h :: t => (c :: h) :: t
      | [] => [[c]]

/-- Parses digits at the head of a character list, Go's `leadingInt`. -/
def leadingIntAux (acc : Int) : List Char → Int × List Char
  | [] => (acc, [])
  | c :: cs =>
    if c.isDigit then leadingIntAux (acc * 10 + (c.toNat - 48)) cs
    else (acc, c :: cs)

/-- Parses a whole character list as a nonnegative integer. -/
def parseAllDigits (cs : List Char) : Option Int :=
  if cs = [] then none
  else
    match leadingIntAux 0 cs with
    | (v, []) => some v
    | _ => none

/-- Decodes a symbolic bcrypt hash back into cost, salt and password,
mirroring bcrypt's `newFromHash` (malformed strings fail). -/
def bcryptDecode (h : String) : Option (Int × Nat × String) :=
  match splitDollar h.data with
  | [] :: ver :: c :: s :: rest =>
    if ver = ['2', 'a'] ∧ rest ≠ [] then
      match parseAllDigits c, parseAllDigits s with
      | some cost, some salt => some (cost, salt.toNat, String.mk (List.intercalate ['$'] rest))
      | _, _ => none
    else none
  | _ => none

/-- Model of bcrypt.GenerateFromPassword (golang.org/x/crypto/bcrypt): rejects
passwords longer than 72 bytes, silently replaces a cost below MinCost with
DefaultCost, rejects a cost above MaxCost with InvalidCostError, and otherwise
hashes with a fresh salt (passed explicitly here). -/
def generateFromPassword (pw : String) (cost : Int) (salt : Nat) : Except GoError String :=
  if 72 < pw.utf8ByteSize then .error .bcryptPasswordTooLong
  else
    let cost := if cost < bcryptMinCost then bcryptDefaultCost else cost
    if cost < bcryptMinCost ∨ bcryptMaxCost < cost then .error (.bcryptInvalidCost cost)
    else .ok (bcryptEncode cost salt pw)

/-- Model of bcrypt.CompareHashAndPassword: decode the hash (malformed hashes
and out-of-range costs fail, hence false), recompute with the recorded cost
and salt, and compare. -/
def compareHashAndPassword (hashedPassword password : String) : Bool :=
  match bcryptDecode hashedPassword with
  | none => false
  | some (cost, salt, _) =>
    if cost < bcryptMinCost ∨ bcryptMaxCost < cost then false
    else bcryptEncode cost salt password == hashedPassword

/-- Config from types.go. -/
structure Config where
  jwtSecret : String := ""
  tokenExpiry : String := ""
  refreshExpiry : String := ""
  bcryptCost : Int := 0
  rateLimitRPM : Int := 0
  emailRequired : Bool := false
deriving Repr

/-- User record from types.go (the password field holds the bcrypt hash). -/
structure User where
  id : String
  email : String
  password : String
  name : String
  role : String
  permissions : List String
  emailVerified : Bool
  createdAt : Int
  updatedAt : Int
  metadata : List (String × GoValue)
deriving Repr

/-- UserInfo from types.go: safe user information, without a password field. -/
structure UserInfo where
  id : String
  email : String
  name : String
  role : String
  permissions : List String
  emailVerified : Bool
  metadata : List (String × GoValue)
deriving Repr

/-- AuthKit state: configuration plus the in-memory user map (the mutex of the
Go struct serialises access and carries no further meaning in a sequential
model). -/
structure AuthKit where
  config : Config
  users : List (String × User)
deriving Repr

/-- RegisterRequest from types.go. -/
structure RegisterRequest where
  email : String
  password : String
  name : String
  role : String := ""
  metadata : List (String × GoValue) := []
deriving Repr

/-- New from authkit.go: fills in the configuration defaults. -/
def New (config : Config) : AuthKit :=
  let config := { config with bcryptCost := if config.bcryptCost = 0 then 12 else config.bcryptCost }
  let config := { config with tokenExpiry := if config.tokenExpiry = "" then "24h" else config.tokenExpiry }
  let config := { config with refreshExpiry := if config.refreshExpiry = "" then "7d" else config.refreshExpiry }
  let config := { config with rateLimitRPM := if config.rateLimitRPM = 0 then 60 else config.rateLimitRPM }
  { config := config, users := [] }

/-- HashPassword from password.go; the fresh random salt that
bcrypt.GenerateFromPassword draws internally is an explicit argument. -/
def HashPassword (a : AuthKit) (password : String) (salt : Nat) : Except GoError String :=
  generateFromPassword password a.config.bcryptCost salt

/-- ComparePassword from password.go. -/
def ComparePassword (hashedPassword password : String) : Bool :=
  compareHashAndPassword hashedPassword password

/-- HashPasswordStatic from password.go: a zero cost selects the fixed
default 12 before bcrypt is called. -/
def HashPasswordStatic (password : String) (cost : Int) (salt : Nat) : Except GoError String :=
  let cost := if cost = 0 then 12 else cost
  generateFromPassword password cost salt

/-- ComparePasswordStatic from password.go. -/
def ComparePasswordStatic (hashedPassword password : String) : Bool :=
  compareHashAndPassword hashedPassword password

/-- Nanoseconds per second, for Go duration arithmetic. -/
def nsPerSecond : Int := 1000000000

/-- Nanoseconds per unit, the unitMap of Go's time.ParseDuration. -/
def unitNs (u : List Char) : Option Int :=
  if u = ['n', 's'] then some 1
  else if u = ['u', 's'] then some 1000
  else if u = ['µ', 's'] then some 1000
  else if u = ['μ', 's'] then some 1000
  else if u = ['m', 's'] then some 1000000
  else if u = ['s'] then some nsPerSecond
  else if u = ['m'] then some (60 * nsPerSecond)
  else if u = ['h'] then some (3600 * nsPerSecond)
  else none

/-- Parses a fraction (digits after the decimal point), Go's
`leadingFraction`: returns numerator, scale and the rest. -/
def leadingFractionAux (f scale : Int) : List Char → Int × Int × List Char
  | [] => (f, scale, [])
  | c :: cs =>
    if c.isDigit then leadingFractionAux (f * 10 + (c.toNat - 48)) (scale * 10) cs
    else (f, scale, c :: cs)

/-- Consumes a unit name: characters up to the next digit or dot. -/
def takeUnit : List Char → List Char × List Char
  | [] => ([], [])
  | c :: cs =>
    if c = '.' ∨ c.isDigit then ([], c :: cs)
    else
      let (u, r) := takeUnit cs
      (c :: u, r)

/-- Main loop of Go's time.ParseDuration: repeatedly parse number, optional
fraction and unit; the fuel is an upper bound on the iterations (each round
consumes at least one character).  The fractional part is computed with
integer division where Go uses float64, an approximation irrelevant below
nanosecond scale; integer overflow of the 64-bit accumulator is not
modelled. -/
def parseDurationLoop : Nat → List Char → Option Int
  | 0, _ => none
  | _, [] => some 0
  | fuel + 1, c :: cs0 =>
    if ¬ (c = '.' ∨ c.isDigit) then none
    else
      let s := c :: cs0
      let (v, s1) := leadingIntAux 0 s
      let pre : Bool := s1.length != s.length
      let (f, scale, s2, post) :=
        match s1 with
        | '.' :: rest =>
          let (f, sc, r) := leadingFractionAux 0 1 rest
          (f, sc, r, (r.length != rest.length : Bool))
        | _ => (0, 1, s1, false)
      if !pre && !post then none
      else
        let (u, s3) := takeUnit s2
        if u = [] then none
        else
          match unitNs u with
          | none => none
          | some unit =>
            let value := v * unit + Int.tdiv (f * unit) scale
            match parseDurationLoop fuel s3 with
            | none => none
            | some rest => some (value + rest)

/-- Model of Go's time.ParseDuration: optional sign, the special case "0",
then one or more number-unit groups; the result is in nanoseconds, `none` is
Go's parse error. -/
def parseDuration (s : String) : Option Int :=
  let cs := s.data
  let (neg, cs) :=
    match cs with
    | '-' :: rest => (true, rest)
    | '+' :: rest => (false, rest)
    | _ => (false, cs)
  if cs = ['0'] then some 0
  else if cs = [] then none
  else
    match parseDurationLoop (cs.length + 1) cs with
    | none => none
    | some d => some (if neg then -d else d)

/-- JWT signing algorithms relevant to the code: the HMAC family accepted by
the keyfunc, plus representatives of the rejected families. -/
inductive Alg where
  | HS256
  | HS384
  | HS512
  | RS256
  | algNone
deriving Repr, DecidableEq

/-- A JWT payload: the claims object as a flat JSON key/value document. -/
abbrev Payload := List (String × GoValue)

/-- Symbolic MAC signature: records the algorithm, the key and the signing
input; verification is structural comparison (collision-free MAC model). -/
structure Signature where
  alg : Alg
  secret : String
  signingInput : Payload
deriving Repr

/-- Boolean equality of signatures, standing for comparing MAC bytes. -/
def Signature.beq (s1 s2 : Signature) : Bool :=
  s1.alg == s2.alg && s1.secret == s2.secret && GoValue.beqKVs s1.signingInput s2.signingInput

/-- A token string: either not three well-formed base64url segments
(malformed), or a header declaring an algorithm, a payload and a signature. -/
inductive Token where
  | malformed (raw : String)
  | signed (alg : Alg) (payload : Payload) (sig : Signature)
deriving Repr

/-- Payload of a well-formed token (empty for malformed strings). -/
def Token.payload : Token → Payload
  | .malformed _ => []
  | .signed _ p _ => p

/-- Whether the algorithm is of the HMAC family, the keyfunc check
`token.Method.(*jwt.SigningMethodHMAC)` in ValidateToken and RefreshToken. -/
def algIsHMAC : Alg → Bool
  | .HS256 => true
  | .HS384 => true
  | .HS512 => true
  | _ => false

/-- Errors of jwt.ParseWithClaims as discriminated by golang-jwt/jwt/v5. -/
inductive JwtError where
  | malformed
  | keyfuncFailed
  | signatureInvalid
  | tokenExpired
  | tokenNotValidYet
deriving Repr, DecidableEq

/-- Expiry check of the jwt/v5 validator: fails when an exp claim is present
and the current time is not before it. -/
def expFail : Option Int → Int → Bool
  | some e, now => decide (e ≤ now)
  | none, _ => false

/-- Not-before check of the jwt/v5 validator: fails when an nbf claim is
present and the current time is before it. -/
def nbfFail : Option Int → Int → Bool
  | some n, now => decide (now < n)
  | none, _ => false

/-- Model of jwt.ParseWithClaims (golang-jwt/jwt/v5) with an HMAC-checking
keyfunc, generic over the claims type: parse structure and decode claims,
run the keyfunc (rejecting non-HMAC algorithms), verify the signature
against the secret, then validate the exp and nbf time claims. -/
def parseWithClaims {β : Type} (decode : Payload → Option β)
    (getExp getNbf : β → Option Int) (secret : String) (now : Int) :
    Token → Except JwtError β
  | .malformed _ => .error .malformed
  | .signed alg payload sig =>
    match decode payload with
    | none => .error .malformed
    | some c =>
      if algIsHMAC alg then
        if Signature.beq sig ⟨alg, secret, payload⟩ then
          if expFail (getExp c) now then .error .tokenExpired
          else if nbfFail (getNbf c) now then .error .tokenNotValidYet
          else .ok c
        else .error .signatureInvalid
      else .error .keyfuncFailed

/-- Claims from types.go: custom fields plus the embedded
jwt.RegisteredClaims (pointer-typed time claims become Option). -/
structure Claims where
  userID : String
  email : String
  role : String
  permissions : List String
  metadata : List (String × GoValue)
  iss : String
  sub : String
  aud : List String
  exp : Option Int
  nbf : Option Int
  iat : Option Int
  jti : String
deriving Repr

/-- jwt.RegisteredClaims of golang-jwt/jwt/v5. -/
structure RegisteredClaims where
  iss : String
  sub : String
  aud : List String
  exp : Option Int
  nbf : Option Int
  iat : Option Int
  jti : String
deriving Repr

/-- Looks up a key in a JSON object / Go map (association list). -/
def mapGet (m : Payload) (k : String) : Option GoValue :=
  match m.find? (fun kv => kv.1 == k) with
  | some kv => some kv.2
  | none => none

/-- Go map assignment m[k] = v: replaces the binding if present, else adds. -/
def mapInsert (m : Payload) (k : String) (v : GoValue) : Payload :=
  match m with
  | [] => [(k, v)]
  | kv :: rest => if kv.1 == k then (k, v) :: rest else kv :: mapInsert rest k v

/-- JSON-decodes a string field: absent means the zero value "", a non-string
value is an unmarshal type error. -/
def decStr (p : Payload) (k : String) : Option String :=
  match mapGet p k with
  | none => some ""
  | some (.vStr s) => some s
  | some _ => none

/-- JSON-decodes an optional numeric date field (a *jwt.NumericDate). -/
def decNum (p : Payload) (k : String) : Option (Option Int) :=
  match mapGet p k with
  | none => some none
  | some (.vInt n) => some (some n)
  | some _ => none

/-- JSON-decodes the elements of a string array (failure on any non-string
element). -/
def decStrElems : List GoValue → Option (List String)
  | [] => some []
  | .vStr s :: rest => (decStrElems rest).map (s :: ·)
  | _ => none

/-- JSON-decodes a []string field: absent or null gives the nil slice, an
array must consist of strings. -/
def decStrList (p : Payload) (k : String) : Option (List String) :=
  match mapGet p k with
  | none => some []
  | some .vNull => some []
  | some (.vStrList xs) => some xs
  | some (.vList xs) => decStrElems xs
  | some _ => none

/-- JSON-decodes a jwt.ClaimStrings audience: a single string or an array of
strings. -/
def decAud (p : Payload) (k : String) : Option (List String) :=
  match mapGet p k with
  | none => some []
  | some .vNull => some []
  | some (.vStr s) => some [s]
  | some (.vStrList xs) => some xs
  | some (.vList xs) => decStrElems xs
  | some _ => none

/-- JSON-decodes a metadata map field. -/
def decMeta (p : Payload) (k : String) : Option (List (String × GoValue)) :=
  match mapGet p k with
  | none => some []
  | some .vNull => some []
  | some (.vMap kvs) => some kvs
  | some _ => none

/-- JSON unmarshalling of a payload into the Claims struct of types.go
(unknown keys are ignored, absent fields take zero values). -/
def decodeClaims (p : Payload) : Option Claims := do
  let userID ← decStr p "user_id"
  let email ← decStr p "email"
  let role ← decStr p "role"
  let permissions ← decStrList p "permissions"
  let metadata ← decMeta p "metadata"
  let iss ← decStr p "iss"
  let sub ← decStr p "sub"
  let aud ← decAud p "aud"
  let exp ← decNum p "exp"
  let nbf ← decNum p "nbf"
  let iat ← decNum p "iat"
  let jti ← decStr p "jti"
  pure ⟨userID, email, role, permissions, metadata, iss, sub, aud, exp, nbf, iat, jti⟩

/-- JSON unmarshalling of a payload into jwt.RegisteredClaims (custom keys
such as user_id are ignored). -/
def decodeRegistered (p : Payload) : Option RegisteredClaims := do
  let iss ← decStr p "iss"
  let sub ← decStr p "sub"
  let aud ← decAud p "aud"
  let exp ← decNum p "exp"
  let nbf ← decNum p "nbf"
  let iat ← decNum p "iat"
  let jti ← decStr p "jti"
  pure ⟨iss, sub, aud, exp, nbf, iat, jti⟩

/-- Access-token duration: the parsed TokenExpiry, defaulting to 24 hours
when the configuration string does not parse (GenerateAccessToken). -/
def accessDurationNs (cfg : Config) : Int :=
  (parseDuration cfg.tokenExpiry).getD (24 * 3600 * nsPerSecond)

/-- Refresh-token duration: the parsed RefreshExpiry, defaulting to 7 days
when the configuration string does not parse (GenerateRefreshToken). -/
def refreshDurationNs (cfg : Config) : Int :=
  (parseDuration cfg.refreshExpiry).getD (7 * 24 * 3600 * nsPerSecond)

/-- ExpiresIn computation of LoginUser and RefreshToken: the error of
time.ParseDuration is discarded, so an unparsable TokenExpiry yields the zero
duration, and int64(duration.Seconds()) truncates toward zero. -/
def expiresInSeconds (cfg : Config) : Int :=
  Int.tdiv ((parseDuration cfg.tokenExpiry).getD 0) nsPerSecond

/-- JSON marshalling of the Claims struct built by GenerateAccessToken:
field order follows the struct declaration, metadata carries omitempty, the
audience is a one-element array. -/
def accessPayload (u : User) (jti : String) (iat exp nbf : Int) : Payload :=
  [("user_id", .vStr u.id), ("email", .vStr u.email), ("role", .vStr u.role),
   ("permissions", .vList (u.permissions.map .vStr))]
  ++ (if u.metadata.isEmpty then [] else [("metadata", .vMap (normKVs u.metadata))])
  ++ [("iss", .vStr "authkit"), ("sub", .vStr u.id),
      ("aud", .vList [.vStr "authkit-users"]),
      ("exp", .vInt exp), ("nbf", .vInt nbf), ("iat", .vInt iat),
      ("jti", .vStr jti)]

/-- JSON marshalling of the jwt.RegisteredClaims built by
GenerateRefreshToken. -/
def refreshPayload (subj jti : String) (iat exp nbf : Int) : Payload :=
  [("iss", .vStr "authkit-refresh"), ("sub", .vStr subj),
   ("aud", .vList [.vStr "authkit-refresh"]),
   ("exp", .vInt exp), ("nbf", .vInt nbf), ("iat", .vInt iat),
   ("jti", .vStr jti)]

/-- GenerateAccessToken from jwt.go: full claims snapshot of the user, issuer
"authkit", audience "authkit-users", HS256 over the configured secret; an
unparsable TokenExpiry falls back to 24 hours. -/
def GenerateAccessToken (a : AuthKit) (user : User) (now : Int) (jti : String) : Token :=
  let exp := now + Int.tdiv (accessDurationNs a.config) nsPerSecond
  let payload := accessPayload user jti now exp now
  .signed .HS256 payload ⟨.HS256, a.config.jwtSecret, payload⟩

/-- GenerateRefreshToken from jwt.go: minimal registered claims, issuer and
audience "authkit-refresh", HS256 over the same secret; an unparsable
RefreshExpiry falls back to 7 days. -/
def GenerateRefreshToken (a : AuthKit) (user : User) (now : Int) (jti : String) : Token :=
  let exp := now + Int.tdiv (refreshDurationNs a.config) nsPerSecond
  let payload := refreshPayload user.id jti now exp now
  .signed .HS256 payload ⟨.HS256, a.config.jwtSecret, payload⟩

/-- The jwt.ParseWithClaims call of ValidateToken (claims type Claims). -/
def parseAccessClaims (secret : String) (now : Int) (t : Token) : Except JwtError Claims :=
  parseWithClaims decodeClaims Claims.exp Claims.nbf secret now t

/-- The jwt.ParseWithClaims call of RefreshToken (claims type
jwt.RegisteredClaims). -/
def parseRefreshClaims (secret : String) (now : Int) (t : Token) : Except JwtError RegisteredClaims :=
  parseWithClaims decodeRegistered RegisteredClaims.exp RegisteredClaims.nbf secret now t

/-- ValidateToken from jwt.go: any parse, signature, algorithm or time-claim
failure is returned as ErrInvalidToken. -/
def ValidateToken (a : AuthKit) (t : Token) (now : Int) : Except GoError Claims :=
  match parseAccessClaims a.config.jwtSecret now t with
  | .error _ => .error .errInvalidToken
  | .ok c => .ok c

/-- userToUserInfo from types.go: converts User to UserInfo (without
password). -/
def userToUserInfo (user : User) : UserInfo :=
  { id := user.id, email := user.email, name := user.name, role := user.role,
    permissions := user.permissions, emailVerified := user.emailVerified,
    metadata := user.metadata }

/-- Map lookup a.users[userID]. -/
def lookupUser (users : List (String × User)) (id : String) : Option User :=
  match users.find? (fun kv => kv.1 == id) with
  | some kv => some kv.2
  | none => none

/-- GetUserByID from types.go: returns the stored User record itself. -/
def GetUserByID (a : AuthKit) (userID : String) : Except GoError User :=
  match lookupUser a.users userID with
  | some user => .ok user
  | none => .error .errUserNotFound

/-- Linear search for a user by email, the loop of LoginUser and
GetUserByEmail. -/
def findUserByEmail (users : List (String × User)) (email : String) : Option User :=
  match users.find? (fun kv => kv.2.email == email) with
  | some kv => some kv.2
  | none => none

/-- GetUserByEmail from types.go: returns the stored User record itself. -/
def GetUserByEmail (a : AuthKit) (email : String) : Except GoError User :=
  match findUserByEmail a.users email with
  | some user => .ok user
  | none => .error .errUserNotFound

/-- TokenResponse from types.go. -/
structure TokenResponse where
  accessToken : Token
  refreshToken : Token
  tokenType : String
  expiresIn : Int
  user : UserInfo
deriving Repr

/-- RegisterUser from authkit.go: duplicate-email check over all stored
users, bcrypt hash, fresh id (explicit), default role "user", empty
permission list, email verified unless verification is required. -/
def RegisterUser (a : AuthKit) (req : RegisterRequest) (now : Int) (freshID : String)
    (salt : Nat) : Except GoError UserInfo × AuthKit :=
  if a.users.any (fun kv => kv.2.email == req.email) then
    (.error .errUserAlreadyExists, a)
  else
    match HashPassword a req.password salt with
    | .error e => (.error e, a)
    | .ok hashedPassword =>
      let user : User :=
        { id := freshID, email := req.email, password := hashedPassword,
          name := req.name,
          role := if req.role == "" then "user" else req.role,
          permissions := [], emailVerified := !a.config.emailRequired,
          createdAt := now, updatedAt := now, metadata := req.metadata }
      (.ok (userToUserInfo user), { a with users := a.users ++ [(freshID, user)] })

/-- LoginUser from authkit.go: find by email, compare password, mint both
tokens, report ExpiresIn from the (error-discarding) TokenExpiry parse. -/
def LoginUser (a : AuthKit) (email password : String) (now : Int) (jtiAccess jtiRefresh : String) :
    Except GoError TokenResponse :=
  match findUserByEmail a.users email with
  | none => .error .errUserNotFound
  | some user =>
    if ComparePassword user.password password then
      .ok { accessToken := GenerateAccessToken a user now jtiAccess,
            refreshToken := GenerateRefreshToken a user now jtiRefresh,
            tokenType := "Bearer",
            expiresIn := expiresInSeconds a.config,
            user := userToUserInfo user }
    else .error .errInvalidPassword

/-- RefreshToken from jwt.go: parse as registered claims (any failure becomes
ErrInvalidToken), re-resolve the subject through the directory, then mint a
fresh access/refresh pair. -/
def RefreshToken (a : AuthKit) (t : Token) (now : Int) (jtiAccess jtiRefresh : String) :
    Except GoError TokenResponse :=
  match parseRefreshClaims a.config.jwtSecret now t with
  | .error _ => .error .errInvalidToken
  | .ok claims =>
    match GetUserByID a claims.sub with
    | .error e => .error e
    | .ok user =>
      .ok { accessToken := GenerateAccessToken a user now jtiAccess,
            refreshToken := GenerateRefreshToken a user now jtiRefresh,
            tokenType := "Bearer",
            expiresIn := expiresInSeconds a.config,
            user := userToUserInfo user }

/-- The minimal claim set of GenerateCustomToken (a jwt.MapClaims literal;
the audience is a plain string here, unlike the access token's array). -/
def customBasePayload (userID jti : String) (iat exp nbf : Int) : Payload :=
  [("jti", .vStr jti), ("user_id", .vStr userID), ("iss", .vStr "authkit"),
   ("aud", .vStr "authkit-users"), ("iat", .vInt iat), ("exp", .vInt exp),
   ("nbf", .vInt nbf)]

/-- GenerateCustomToken from jwt.go: the caller's claims are written over
the base map one by one, so caller values win on colliding keys; values are
JSON-marshalled at signing time (normJSON). -/
def GenerateCustomToken (a : AuthKit) (userID : String) (customClaims : List (String × GoValue))
    (expiryNs : Int) (now : Int) (jti : String) : Token :=
  let base := customBasePayload userID jti now (now + Int.tdiv expiryNs nsPerSecond) now
  let payload := customClaims.foldl (fun m kv => mapInsert m kv.1 (normJSON kv.2)) base
  .signed .HS256 payload ⟨.HS256, a.config.jwtSecret, payload⟩

/-- Field updates of UpdateUser: each of the four recognized keys is applied
only when the dynamic type assertion succeeds; everything else is ignored. -/
def applyUpdates (user : User) (updates : Payload) : User :=
  let user :=
    match mapGet updates "name" with
    | some (.vStr s) => { user with name := s }
    | _ => user
  let user :=
    match mapGet updates "role" with
    | some (.vStr s) => { user with role := s }
    | _ => user
  let user :=
    match mapGet updates "permissions" with
    | some (.vStrList xs) => { user with permissions := xs }
    | _ => user
  let user :=
    match mapGet updates "metadata" with
    | some (.vMap m) => { user with metadata := m }
    | _ => user
  user

/-- Replaces the record stored under a key (the in-place mutation through
the *User pointer in Go). -/
def setUser (users : List (String × User)) (id : String) (u : User) : List (String × User) :=
  users.map (fun kv => if kv.1 == id then (kv.1, u) else kv)

/-- UpdateUser from types.go: not-found error, dynamic field updates,
UpdatedAt stamped with the current time. -/
def UpdateUser (a : AuthKit) (userID : String) (updates : Payload) (now : Int) :
    Except GoError UserInfo × AuthKit :=
  match lookupUser a.users userID with
  | none => (.error .errUserNotFound, a)
  | some user =>
    let user := { applyUpdates user updates with updatedAt := now }
    (.ok (userToUserInfo user), { a with users := setUser a.users userID user })

/-- DeleteUser from types.go. -/
def DeleteUser (a : AuthKit) (userID : String) : Except GoError Unit × AuthKit :=
  if (lookupUser a.users userID).isSome then
    (.ok (), { a with users := a.users.filter (fun kv => !(kv.1 == userID)) })
  else (.error .errUserNotFound, a)

/-- ListUsers from types.go: all users as UserInfo. -/
def ListUsers (a : AuthKit) : List UserInfo :=
  a.users.map (fun kv => userToUserInfo kv.2)

/-- Keys of the update map recognized by UpdateUser. -/
def knownUpdateKeys : List String := ["name", "role", "permissions", "metadata"]

/-- Email uniqueness across all live records of the directory. -/
def emailsUnique (users : List (String × User)) : Prop :=
  users.Pairwise (fun kv1 kv2 => kv1.2.email ≠ kv2.2.email)

/-- Fixture configuration for concrete evaluations. -/
def sampleConfig : Config :=
  { jwtSecret := "topsecret", tokenExpiry := "1h", refreshExpiry := "2h", bcryptCost := 12 }

/-- Fixture bcrypt hash of the fixture user's password. -/
def sampleHash : String := bcryptEncode 12 5 "password123"

/-- Fixture user record. -/
def sampleUser : User :=
  { id := "u1", email := "alice@example.com", password := sampleHash, name := "Alice",
    role := "user", permissions := ["read"], emailVerified := true,
    createdAt := 0, updatedAt := 0, metadata := [] }

/-- Fixture AuthKit state holding the fixture user. -/
def sampleAuth : AuthKit := { config := sampleConfig, users := [("u1", sampleUser)] }

/-- Fixture state after the fixture user has been deleted. -/
def sampleAuthDeleted : AuthKit := (DeleteUser sampleAuth "u1").2

/-- Fixture AuthKit whose TokenExpiry string does not parse as a duration. -/
def sampleAuthBadExpiry : AuthKit :=
  { config := { jwtSecret := "topsecret", tokenExpiry := "soon", refreshExpiry := "2h",
                bcryptCost := 12 },
    users := [("u1", sampleUser)] }

mutual

theorem GoValue.beq_refl : ∀ a : GoValue, GoValue.beq a a = true
  | .vStr a => by simp [GoValue.beq]
  | .vInt a => by simp [GoValue.beq]
  | .vBool a => by simp [GoValue.beq]
  | .vStrList a => by simp [GoValue.beq]
  | .vList a => by simp [GoValue.beq, GoValue.beqList_refl a]
  | .vMap a => by simp [GoValue.beq, GoValue.beqKVs_refl a]
  | .vNull => rfl

theorem GoValue.beqList_refl : ∀ xs : List GoValue, GoValue.beqList xs xs = true
  | [] => rfl
  | a :: as => by simp [GoValue.beqList, GoValue.beq_refl a, GoValue.beqList_refl as]

theorem GoValue.beqKVs_refl : ∀ kvs : List (String × GoValue), GoValue.beqKVs kvs kvs = true
  | [] => rfl
  | (k, v) :: as => by simp [GoValue.beqKVs, GoValue.beq_refl v, GoValue.beqKVs_refl as]

end


/-- Decoding a string array that came from marshalling a Go []string gives
back the original list. -/
theorem decStrElems_map_vStr (xs : List String) :
    decStrElems (xs.map GoValue.vStr) = some xs := by
  induction xs with
  | nil => rfl
  | cons a as ih => simp [decStrElems, ih]

/-- The exp entry of an access-token payload. -/
theorem mapGet_accessPayload_exp (u : User) (jti : String) (iat exp nbf : Int) :
    mapGet (accessPayload u jti iat exp nbf) "exp" = some (.vInt exp) := by
  obtain ⟨i, e, p, n, r, pm, ev, ca, ua, md⟩ := u
  cases md <;> rfl

/-- Decoding an access-token payload into the Claims struct restores the
snapshot of the user taken at issuance. -/
theorem decodeClaims_accessPayload (u : User) (jti : String) (iat exp nbf : Int) :
    decodeClaims (accessPayload u jti iat exp nbf) =
      some ⟨u.id, u.email, u.role, u.permissions,
            (if u.metadata.isEmpty then [] else normKVs u.metadata),
            "authkit", u.id, ["authkit-users"], some exp, some nbf, some iat, jti⟩ := by
  obtain ⟨i, e, p, n, r, pm, ev, ca, ua, md⟩ := u
  cases md <;>
    simp [decodeClaims, accessPayload, decStr, decNum, decStrList, decAud, decMeta, mapGet,
      decStrElems_map_vStr, decStrElems, List.find?]

/-- Decoding a refresh-token payload into jwt.RegisteredClaims. -/
theorem decodeRegistered_refreshPayload (subj jti : String) (iat exp nbf : Int) :
    decodeRegistered (refreshPayload subj jti iat exp nbf) =
      some ⟨"authkit-refresh", subj, ["authkit-refresh"], some exp, some nbf, some iat, jti⟩ := rfl

/-- Decoding a refresh-token payload into the Claims struct: the custom
fields are absent, so they take their zero values. -/
theorem decodeClaims_refreshPayload (subj jti : String) (iat exp nbf : Int) :
    decodeClaims (refreshPayload subj jti iat exp nbf) =
      some ⟨"", "", "", [], [], "authkit-refresh", subj, ["authkit-refresh"],
            some exp, some nbf, some iat, jti⟩ := rfl

/-- Decoding an access-token payload into jwt.RegisteredClaims: the custom
fields are ignored. -/
theorem decodeRegistered_accessPayload (u : User) (jti : String) (iat exp nbf : Int) :
    decodeRegistered (accessPayload u jti iat exp nbf) =
      some ⟨"authkit", u.id, ["authkit-users"], some exp, some nbf, some iat, jti⟩ := by
  obtain ⟨i, e, p, n, r, pm, ev, ca, ua, md⟩ := u
  cases md <;>
    simp [decodeRegistered, accessPayload, decStr, decNum, decStrList, decAud, decMeta, mapGet,
      decStrElems, List.find?]

/-- An exp claim strictly in the future passes the expiry check. -/
theorem expFail_false {e now : Int} (h : now < e) : expFail (some e) now = false := by
  simp [expFail]; omega

/-- An nbf claim not in the future passes the not-before check. -/
theorem nbfFail_false {n now : Int} (h : n ≤ now) : nbfFail (some n) now = false := by
  simp [nbfFail]; omega

/-- A token signed with the expected secret, whose claims decode and whose
time window contains the current instant, parses successfully. -/
theorem parseWithClaims_ok {β : Type} (decode : Payload → Option β) (ge gn : β → Option Int)
    (secret : String) (now : Int) (alg : Alg) (payload : Payload) (c : β)
    (halg : algIsHMAC alg = true)
    (hdec : decode payload = some c)
    (hexp : expFail (ge c) now = false)
    (hnbf : nbfFail (gn c) now = false) :
    parseWithClaims decode ge gn secret now (.signed alg payload ⟨alg, secret, payload⟩) = .ok c := by
  simp [parseWithClaims, hdec, halg, hexp, hnbf, Signature.beq, GoValue.beqKVs_refl]

/-- ValidateToken succeeds on a well-signed HS256 token whose claims decode
and whose time window contains the current instant. -/
theorem ValidateToken_ok (a : AuthKit) (payload : Payload) (c : Claims) (now : Int)
    (hdec : decodeClaims payload = some c)
    (hexp : expFail c.exp now = false)
    (hnbf : nbfFail c.nbf now = false) :
    ValidateToken a (.signed .HS256 payload ⟨.HS256, a.config.jwtSecret, payload⟩) now = .ok c := by
  unfold ValidateToken parseAccessClaims
  rw [parseWithClaims_ok _ _ _ _ _ .HS256 _ _ rfl hdec hexp hnbf]

/-- RefreshToken on a well-signed token that parses as registered claims
within its time window reduces to the directory lookup of the subject. -/
theorem RefreshToken_parse_ok (a : AuthKit) (payload : Payload) (rc : RegisteredClaims)
    (now : Int) (jA jR : String)
    (hdec : decodeRegistered payload = some rc)
    (hexp : expFail rc.exp now = false)
    (hnbf : nbfFail rc.nbf now = false) :
    RefreshToken a (.signed .HS256 payload ⟨.HS256, a.config.jwtSecret, payload⟩) now jA jR =
      (match GetUserByID a rc.sub with
       | .error e => .error e
       | .ok user =>
         .ok { accessToken := GenerateAccessToken a user now jA,
               refreshToken := GenerateRefreshToken a user now jR,
               tokenType := "Bearer", expiresIn := expiresInSeconds a.config,
               user := userToUserInfo user }) := by
  unfold RefreshToken parseRefreshClaims
  rw [parseWithClaims_ok _ _ _ _ _ .HS256 _ _ rfl hdec hexp hnbf]

/-- The identity field is untouched by the dynamic field updates. -/
theorem applyUpdates_id (u : User) (upd : Payload) : (applyUpdates u upd).id = u.id := by
  unfold applyUpdates
  dsimp only
  repeat' split
  all_goals rfl

/-- The email field is untouched by the dynamic field updates. -/
theorem applyUpdates_email (u : User) (upd : Payload) : (applyUpdates u upd).email = u.email := by
  unfold applyUpdates
  dsimp only
  repeat' split
  all_goals rfl

/-- The password hash is untouched by the dynamic field updates. -/
theorem applyUpdates_password (u : User) (upd : Payload) :
    (applyUpdates u upd).password = u.password := by
  unfold applyUpdates
  dsimp only
  repeat' split
  all_goals rfl

/-- The creation timestamp is untouched by the dynamic field updates. -/
theorem applyUpdates_createdAt (u : User) (upd : Payload) :
    (applyUpdates u upd).createdAt = u.createdAt := by
  unfold applyUpdates
  dsimp only
  repeat' split
  all_goals rfl

/-- The update timestamp is untouched by the dynamic field updates (it is
stamped separately by UpdateUser). -/
theorem applyUpdates_updatedAt (u : User) (upd : Payload) :
    (applyUpdates u upd).updatedAt = u.updatedAt := by
  unfold applyUpdates
  dsimp only
  repeat' split
  all_goals rfl

/-- The permission set after the dynamic field updates: taken from the map
exactly when the "permissions" entry has dynamic type []string. -/
theorem applyUpdates_permissions (u : User) (upd : Payload) :
    (applyUpdates u upd).permissions =
      (match mapGet upd "permissions" with
       | some (.vStrList xs) => xs
       | _ => u.permissions) := by
  unfold applyUpdates
  dsimp only
  repeat' split
  all_goals simp_all

/-- Looking up the key just inserted finds the inserted value. -/
theorem mapGet_mapInsert_self (m : Payload) (k : String) (v : GoValue) :
    mapGet (mapInsert m k v) k = some v := by
  induction m with
  | nil => simp [mapInsert, mapGet]
  | cons kv rest ih =>
    by_cases h : kv.1 == k
    · simp [mapInsert, mapGet, h]
    · simp only [mapInsert, h]
      simp only [mapGet, List.find?] at ih ⊢
      simp [h, ih]

/-- Inserting under a different key does not change a lookup. -/
theorem mapGet_mapInsert_ne (m : Payload) (k kq : String) (v : GoValue) (h : kq ≠ k) :
    mapGet (mapInsert m kq v) k = mapGet m k := by
  have hq : (kq == k) = false := by simp [h]
  induction m with
  | nil => simp [mapInsert, mapGet, List.find?, hq]
  | cons kv rest ih =>
    by_cases h2 : (kv.1 == kq) = true
    · have hk : (kv.1 == k) = false := by
        have h4 := eq_of_beq h2
        simp [h4, h]
      simp [mapInsert, mapGet, List.find?, h2, hk, hq]
    · have h2f : (kv.1 == kq) = false := by simpa using h2
      by_cases h3 : (kv.1 == k) = true
      · simp [mapInsert, mapGet, List.find?, h2f, h3]
      · have h3f : (kv.1 == k) = false := by simpa using h3
        simp only [mapInsert, h2f, Bool.false_eq_true, if_false]
        simp only [mapGet, List.find?, h3f] at ih ⊢
        simpa using ih

/-- Folding caller claims into a map does not affect keys the caller does
not mention. -/
theorem mapGet_foldl_insert_of_notMem (cc : List (String × GoValue)) (m : Payload) (k : String)
    (h : k ∉ cc.map Prod.fst) :
    mapGet (cc.foldl (fun acc kv => mapInsert acc kv.1 (normJSON kv.2)) m) k = mapGet m k := by
  induction cc generalizing m with
  | nil => rfl
  | cons kv rest ih =>
    simp only [List.map_cons, List.mem_cons] at h
    push_neg at h
    simp only [List.foldl_cons]
    rw [ih _ h.2, mapGet_mapInsert_ne _ _ _ _ (fun he => h.1 he.symm)]

/-- Folding caller claims into a map makes every caller key map to the
caller's (marshalled) value, whatever the base map held. -/
theorem mapGet_foldl_insert_of_mem (cc : List (String × GoValue)) (m : Payload) (k : String)
    (v : GoValue) (hnd : (cc.map Prod.fst).Nodup) (hmem : (k, v) ∈ cc) :
    mapGet (cc.foldl (fun acc kv => mapInsert acc kv.1 (normJSON kv.2)) m) k =
      some (normJSON v) := by
  induction cc generalizing m with
  | nil => cases hmem
  | cons kv rest ih =>
    simp only [List.map_cons, List.nodup_cons] at hnd
    simp only [List.foldl_cons]
    rcases List.mem_cons.mp hmem with heq | hmem2
    · subst heq
      rw [mapGet_foldl_insert_of_notMem _ _ _ hnd.1, mapGet_mapInsert_self]
    · exact ih _ hnd.2 hmem2

/-- Filtering an update map down to entries whose key satisfies a predicate
does not change lookups of keys satisfying it. -/
theorem mapGet_filter_keys (m : Payload) (f : String → Bool) (k : String) (hk : f k = true) :
    mapGet (m.filter (fun kv => f kv.1)) k = mapGet m k := by
  induction m with
  | nil => rfl
  | cons kv rest ih =>
    by_cases h2 : (kv.1 == k) = true
    · have : f kv.1 = true := by rw [eq_of_beq h2]; exact hk
      simp [List.filter, mapGet, List.find?, this, h2]
    · have h2f : (kv.1 == k) = false := by simpa using h2
      by_cases h3 : f kv.1 = true
      · simp only [List.filter, h3]
        simp only [mapGet, List.find?, h2f] at ih ⊢
        simpa using ih
      · have h3f : f kv.1 = false := by simpa using h3
        simp only [List.filter, h3f]
        simp only [mapGet, List.find?, h2f] at ih ⊢
        simpa using ih

/-- Entries under unknown keys never influence the dynamic field updates. -/
theorem applyUpdates_filter_known (u : User) (upd : Payload) :
    applyUpdates u (upd.filter (fun kv => knownUpdateKeys.contains kv.1)) = applyUpdates u upd := by
  unfold applyUpdates
  rw [mapGet_filter_keys upd _ "name" rfl, mapGet_filter_keys upd _ "role" rfl,
    mapGet_filter_keys upd _ "permissions" rfl, mapGet_filter_keys upd _ "metadata" rfl]


/-- C1: the claim says ValidateToken returns TokenExpiredError exactly when
the token parses and its signature verifies but the current time is past
expires-at, and InvalidTokenError otherwise.  In the code the jwt layer does
report the expiry distinctly, but ValidateToken wraps every parse error —
expiry included — in ErrInvalidToken: on a well-signed access token with a
one-hour lifetime validated at t = 4000s the jwt parse yields tokenExpired,
yet ValidateToken returns ErrInvalidToken and never ErrTokenExpired, so the
distinction the spec (and the repository's own middleware and Readme)
promise is unobservable. -/
theorem C1_expired_token_reported_invalid :
    parseAccessClaims sampleAuth.config.jwtSecret 4000
        (GenerateAccessToken sampleAuth sampleUser 0 "j1") = .error .tokenExpired ∧
    ValidateToken sampleAuth (GenerateAccessToken sampleAuth sampleUser 0 "j1") 4000 =
      .error .errInvalidToken ∧
    ValidateToken sampleAuth (GenerateAccessToken sampleAuth sampleUser 0 "j1") 4000 ≠
      .error .errTokenExpired := by
  refine ⟨rfl, rfl, ?_⟩
  intro h
  have h2 : (Except.error GoError.errInvalidToken : Except GoError Claims) =
      .error .errTokenExpired := h
  exact absurd (Except.error.inj h2) (by decide)

/-- C2 counterexample: a freshly issued refresh token is accepted (not
rejected with ErrInvalidToken) by ValidateToken, and a freshly issued access
token is accepted by RefreshToken, because neither function checks issuer or
audience; only the HMAC signing scheme and the shared secret are checked. -/
theorem C2_counterexample :
    (ValidateToken sampleAuth (GenerateRefreshToken sampleAuth sampleUser 0 "jr") 10).isOk = true ∧
    ValidateToken sampleAuth (GenerateRefreshToken sampleAuth sampleUser 0 "jr") 10 ≠
      .error .errInvalidToken ∧
    (RefreshToken sampleAuth (GenerateAccessToken sampleAuth sampleUser 0 "ja") 10 "x" "y").isOk
      = true ∧
    RefreshToken sampleAuth (GenerateAccessToken sampleAuth sampleUser 0 "ja") 10 "x" "y" ≠
      .error .errInvalidToken := by
  refine ⟨rfl, ?_, rfl, ?_⟩ <;> intro h
  · have hk : (ValidateToken sampleAuth (GenerateRefreshToken sampleAuth sampleUser 0 "jr")
        10).isOk = true := rfl
    rw [h] at hk
    simp [Except.isOk, Except.toBool] at hk
  · have hk : (RefreshToken sampleAuth (GenerateAccessToken sampleAuth sampleUser 0 "ja")
        10 "x" "y").isOk = true := rfl
    rw [h] at hk
    simp [Except.isOk, Except.toBool] at hk

/-- C2 amended: token classes are not separated.  An unexpired refresh token
is accepted by ValidateToken, yielding claims whose custom fields (user_id,
email, role, permissions) are zero values; and an unexpired access token is
accepted by RefreshToken whenever its subject still exists in the directory,
yielding a brand-new token pair.  Only the HMAC scheme and the shared secret
gate acceptance; the distinct issuer/audience tags are never checked. -/
theorem C2_amended_no_cross_rejection :
    (∀ (a : AuthKit) (u : User) (nowIss : Int) (jti : String) (now : Int),
      nowIss ≤ now →
      now < nowIss + Int.tdiv (refreshDurationNs a.config) nsPerSecond →
      ValidateToken a (GenerateRefreshToken a u nowIss jti) now =
        .ok ⟨"", "", "", [], [], "authkit-refresh", u.id, ["authkit-refresh"],
             some (nowIss + Int.tdiv (refreshDurationNs a.config) nsPerSecond),
             some nowIss, some nowIss, jti⟩) ∧
    (∀ (a : AuthKit) (u uStored : User) (nowIss : Int) (jti : String) (now : Int) (jA jR : String),
      lookupUser a.users u.id = some uStored →
      nowIss ≤ now →
      now < nowIss + Int.tdiv (accessDurationNs a.config) nsPerSecond →
      RefreshToken a (GenerateAccessToken a u nowIss jti) now jA jR =
        .ok { accessToken := GenerateAccessToken a uStored now jA,
              refreshToken := GenerateRefreshToken a uStored now jR,
              tokenType := "Bearer", expiresIn := expiresInSeconds a.config,
              user := userToUserInfo uStored }) := by
  constructor
  · intro a u nowIss jti now h1 h2
    exact ValidateToken_ok a
      (refreshPayload u.id jti nowIss
        (nowIss + Int.tdiv (refreshDurationNs a.config) nsPerSecond) nowIss)
      _ now (decodeClaims_refreshPayload _ _ _ _ _) (expFail_false h2) (nbfFail_false h1)
  · intro a u uStored nowIss jti now jA jR hl h1 h2
    have hstep := RefreshToken_parse_ok a
      (accessPayload u jti nowIss
        (nowIss + Int.tdiv (accessDurationNs a.config) nsPerSecond) nowIss)
      ⟨"authkit", u.id, ["authkit-users"],
       some (nowIss + Int.tdiv (accessDurationNs a.config) nsPerSecond),
       some nowIss, some nowIss, jti⟩
      now jA jR (decodeRegistered_accessPayload _ _ _ _ _) (expFail_false h2) (nbfFail_false h1)
    rw [show GenerateAccessToken a u nowIss jti =
        Token.signed .HS256
          (accessPayload u jti nowIss
            (nowIss + Int.tdiv (accessDurationNs a.config) nsPerSecond) nowIss)
          ⟨.HS256, a.config.jwtSecret,
           accessPayload u jti nowIss
             (nowIss + Int.tdiv (accessDurationNs a.config) nsPerSecond) nowIss⟩ from rfl]
    rw [hstep]
    simp only [GetUserByID]
    rw [hl]

/-- C2 amended witness: concrete cross-acceptance of the two token classes. -/
theorem C2_amended_witness :
    ValidateToken sampleAuth (GenerateRefreshToken sampleAuth sampleUser 0 "jr") 10 =
      .ok ⟨"", "", "", [], [], "authkit-refresh", "u1", ["authkit-refresh"],
           some 7200, some 0, some 0, "jr"⟩ ∧
    RefreshToken sampleAuth (GenerateAccessToken sampleAuth sampleUser 0 "ja") 10 "x" "y" =
      .ok { accessToken := GenerateAccessToken sampleAuth sampleUser 10 "x",
            refreshToken := GenerateRefreshToken sampleAuth sampleUser 10 "y",
            tokenType := "Bearer", expiresIn := expiresInSeconds sampleAuth.config,
            user := userToUserInfo sampleUser } :=
  ⟨C2_amended_no_cross_rejection.1 sampleAuth sampleUser 0 "jr" 10 (by decide) (by decide),
   C2_amended_no_cross_rejection.2 sampleAuth sampleUser sampleUser 0 "ja" 10 "x" "y" rfl
     (by decide) (by decide)⟩


/-- C3 counterexample: GetUserByID and GetUserByEmail return the stored User
record itself, whose password field carries the (non-empty) bcrypt hash — not
the password-free public view. -/
theorem C3_counterexample :
    (GetUserByID sampleAuth "u1").map User.password = .ok sampleHash ∧
    (GetUserByEmail sampleAuth "alice@example.com").map User.password = .ok sampleHash ∧
    sampleHash ≠ "" :=
  ⟨rfl, rfl, by decide⟩

/-- C3 amended: RegisterUser, LoginUser, RefreshToken, UpdateUser and
ListUsers return the password-free UserInfo view (userToUserInfo, which is
independent of the stored hash and of the user view of the record they
correspond to in the directory), while GetUserByID and GetUserByEmail return
the raw stored User record, password hash included. -/
theorem C3_amended_public_views :
    (∀ (u : User) (pw : String), userToUserInfo { u with password := pw } = userToUserInfo u) ∧
    (∀ (a : AuthKit) (req : RegisterRequest) (now : Int) (freshID : String) (salt : Nat)
       (hp : String),
      (a.users.any fun kv => kv.2.email == req.email) = false →
      HashPassword a req.password salt = .ok hp →
      ∃ u, (RegisterUser a req now freshID salt).1 = .ok (userToUserInfo u) ∧
        (freshID, u) ∈ (RegisterUser a req now freshID salt).2.users) ∧
    (∀ (a : AuthKit) (email pw : String) (now : Int) (j1 j2 : String) (u : User),
      findUserByEmail a.users email = some u →
      ComparePassword u.password pw = true →
      (LoginUser a email pw now j1 j2).map TokenResponse.user = .ok (userToUserInfo u)) ∧
    (∀ (a : AuthKit) (t : Token) (now : Int) (j1 j2 : String) (rc : RegisteredClaims) (u : User),
      parseRefreshClaims a.config.jwtSecret now t = .ok rc →
      lookupUser a.users rc.sub = some u →
      (RefreshToken a t now j1 j2).map TokenResponse.user = .ok (userToUserInfo u)) ∧
    (∀ (a : AuthKit) (uid : String) (upd : Payload) (now : Int) (u : User),
      lookupUser a.users uid = some u →
      ∃ u2, (UpdateUser a uid upd now).1 = .ok (userToUserInfo u2)) ∧
    (∀ a : AuthKit, ListUsers a = a.users.map (fun kv => userToUserInfo kv.2)) ∧
    (∀ (a : AuthKit) (uid : String) (u : User),
      GetUserByID a uid = .ok u → lookupUser a.users uid = some u) := by
  refine ⟨?_, ?_, ?_, ?_, ?_, ?_, ?_⟩
  · intro u pw
    rfl
  · intro a req now freshID salt hp hdup hh
    refine ⟨{ id := freshID, email := req.email, password := hp, name := req.name,
              role := if req.role == "" then "user" else req.role, permissions := [],
              emailVerified := !a.config.emailRequired, createdAt := now, updatedAt := now,
              metadata := req.metadata }, ?_, ?_⟩
    · simp [RegisterUser, hdup, hh]
    · simp only [RegisterUser, hdup, hh]
      simp
  · intro a email pw now j1 j2 u hfind hcmp
    simp [LoginUser, hfind, hcmp, Except.map]
  · intro a t now j1 j2 rc u hparse hl
    simp only [RefreshToken, hparse, GetUserByID, hl]
    rfl
  · intro a uid upd now u hu
    exact ⟨{ applyUpdates u upd with updatedAt := now }, by simp [UpdateUser, hu]⟩
  · intro a
    rfl
  · intro a uid u hget
    unfold GetUserByID at hget
    cases hl : lookupUser a.users uid with
    | none => rw [hl] at hget; cases hget
    | some u2 =>
      rw [hl] at hget
      cases hget
      rfl

/-- C3 amended witness: the view-producing operations evaluated on the
fixture state. -/
theorem C3_amended_witness :
    userToUserInfo { sampleUser with password := "other" } = userToUserInfo sampleUser ∧
    (∃ u, (RegisterUser sampleAuth
        { email := "bob@example.com", password := "pw2", name := "Bob" } 3 "u2" 6).1 =
          .ok (userToUserInfo u) ∧
      ("u2", u) ∈ (RegisterUser sampleAuth
        { email := "bob@example.com", password := "pw2", name := "Bob" } 3 "u2" 6).2.users) ∧
    (LoginUser sampleAuth "alice@example.com" "password123" 7 "j1" "j2").map TokenResponse.user =
      .ok (userToUserInfo sampleUser) ∧
    (RefreshToken sampleAuth (GenerateRefreshToken sampleAuth sampleUser 0 "jr") 10 "x" "y").map
        TokenResponse.user = .ok (userToUserInfo sampleUser) ∧
    (∃ u2, (UpdateUser sampleAuth "u1" [("name", GoValue.vStr "Alice2")] 99).1 =
      .ok (userToUserInfo u2)) ∧
    ListUsers sampleAuth = [userToUserInfo sampleUser] ∧
    lookupUser sampleAuth.users "u1" = some sampleUser :=
  ⟨C3_amended_public_views.1 sampleUser "other",
   C3_amended_public_views.2.1 sampleAuth _ 3 "u2" 6 (bcryptEncode 12 6 "pw2") rfl rfl,
   C3_amended_public_views.2.2.1 sampleAuth "alice@example.com" "password123" 7 "j1" "j2"
     sampleUser rfl rfl,
   C3_amended_public_views.2.2.2.1 sampleAuth _ 10 "x" "y"
     ⟨"authkit-refresh", "u1", ["authkit-refresh"], some 7200, some 0, some 0, "jr"⟩
     sampleUser rfl rfl,
   C3_amended_public_views.2.2.2.2.1 sampleAuth "u1" _ 99 sampleUser rfl,
   C3_amended_public_views.2.2.2.2.2.1 sampleAuth,
   C3_amended_public_views.2.2.2.2.2.2 sampleAuth "u1" sampleUser rfl⟩

/-- C4 counterexample: a cost of 2 is outside the supported bcrypt range
4..31 yet hashing does not fail with the invalid-cost error — bcrypt silently
substitutes its default cost 10, both through HashPasswordStatic and through
an AuthKit whose configured BCryptCost is 2. -/
theorem C4_counterexample :
    HashPasswordStatic "password123" 2 7 = .ok (bcryptEncode 10 7 "password123") ∧
    HashPassword { config := { jwtSecret := "s", bcryptCost := 2 }, users := [] }
        "password123" 7 = .ok (bcryptEncode 10 7 "password123") :=
  ⟨rfl, rfl⟩

theorem generateFromPassword_spec (pw : String) (c : Int) (salt : Nat)
    (hlen : pw.utf8ByteSize ≤ 72) :
    generateFromPassword pw c salt =
      (if bcryptMaxCost < c then .error (.bcryptInvalidCost c)
       else if c < bcryptMinCost then .ok (bcryptEncode bcryptDefaultCost salt pw)
       else .ok (bcryptEncode c salt pw)) := by
  have hl : ¬ 72 < pw.utf8ByteSize := by omega
  by_cases h4 : c < 4
  · by_cases h31 : (31:Int) < c
    · omega
    · simp [generateFromPassword, bcryptMinCost, bcryptMaxCost, bcryptDefaultCost, hl, h4, h31]
  · by_cases h31 : (31:Int) < c
    · simp [generateFromPassword, bcryptMinCost, bcryptMaxCost, bcryptDefaultCost, hl, h4, h31]
    · simp [generateFromPassword, bcryptMinCost, bcryptMaxCost, bcryptDefaultCost, hl, h4, h31]

/-- C4 amended: only costs above bcrypt's maximum 31 are rejected (with
bcrypt's InvalidCostError); a nonzero cost below the minimum 4 is silently
replaced by bcrypt's default cost 10 rather than rejected; the zero sentinel
is replaced by the fixed default 12 (in HashPasswordStatic directly, and in
New for the configuration used by HashPassword); costs within 4..31 are used
as given.  All cases assume a password of at most 72 bytes. -/
theorem C4_amended_cost_policy :
    (∀ (pw : String) (c : Int) (salt : Nat), pw.utf8ByteSize ≤ 72 → bcryptMaxCost < c →
      HashPasswordStatic pw c salt = .error (.bcryptInvalidCost c)) ∧
    (∀ (pw : String) (salt : Nat), pw.utf8ByteSize ≤ 72 →
      HashPasswordStatic pw 0 salt = .ok (bcryptEncode 12 salt pw)) ∧
    (∀ (pw : String) (c : Int) (salt : Nat), pw.utf8ByteSize ≤ 72 → c ≠ 0 → c < bcryptMinCost →
      HashPasswordStatic pw c salt = .ok (bcryptEncode bcryptDefaultCost salt pw)) ∧
    (∀ (pw : String) (c : Int) (salt : Nat), pw.utf8ByteSize ≤ 72 →
      bcryptMinCost ≤ c → c ≤ bcryptMaxCost →
      HashPasswordStatic pw c salt = .ok (bcryptEncode c salt pw)) ∧
    (∀ (a : AuthKit) (pw : String) (salt : Nat), pw.utf8ByteSize ≤ 72 →
      bcryptMaxCost < a.config.bcryptCost →
      HashPassword a pw salt = .error (.bcryptInvalidCost a.config.bcryptCost)) ∧
    (∀ (a : AuthKit) (pw : String) (salt : Nat), pw.utf8ByteSize ≤ 72 →
      a.config.bcryptCost < bcryptMinCost →
      HashPassword a pw salt = .ok (bcryptEncode bcryptDefaultCost salt pw)) ∧
    (∀ cfg : Config, cfg.bcryptCost = 0 → (New cfg).config.bcryptCost = 12) := by
  refine ⟨?_, ?_, ?_, ?_, ?_, ?_, ?_⟩
  · intro pw c salt hlen hc
    have hc31 : (31:Int) < c := hc
    show generateFromPassword pw (if c = 0 then 12 else c) salt = _
    rw [if_neg (by omega : ¬ c = 0), generateFromPassword_spec pw c salt hlen, if_pos hc]
  · intro pw salt hlen
    show generateFromPassword pw (if (0:Int) = 0 then 12 else 0) salt = _
    rw [if_pos (rfl : (0:Int) = 0), generateFromPassword_spec pw 12 salt hlen,
      if_neg (by decide : ¬ bcryptMaxCost < (12:Int)),
      if_neg (by decide : ¬ (12:Int) < bcryptMinCost)]
  · intro pw c salt hlen hc0 hc
    have hc4 : c < (4:Int) := hc
    show generateFromPassword pw (if c = 0 then 12 else c) salt = _
    rw [if_neg hc0, generateFromPassword_spec pw c salt hlen]
    have hn : ¬ bcryptMaxCost < c := by unfold bcryptMaxCost; omega
    rw [if_neg hn, if_pos hc]
  · intro pw c salt hlen h1 h2
    have h14 : (4:Int) ≤ c := h1
    show generateFromPassword pw (if c = 0 then 12 else c) salt = _
    have h2' : c ≤ (31:Int) := h2
    rw [if_neg (by omega : ¬ c = 0), generateFromPassword_spec pw c salt hlen]
    have hn1 : ¬ bcryptMaxCost < c := by unfold bcryptMaxCost; omega
    have hn2 : ¬ c < bcryptMinCost := by unfold bcryptMinCost; omega
    rw [if_neg hn1, if_neg hn2]
  · intro a pw salt hlen hc
    show generateFromPassword pw a.config.bcryptCost salt = _
    rw [generateFromPassword_spec pw a.config.bcryptCost salt hlen, if_pos hc]
  · intro a pw salt hlen hc
    show generateFromPassword pw a.config.bcryptCost salt = _
    have hc4 : a.config.bcryptCost < (4:Int) := hc
    rw [generateFromPassword_spec pw a.config.bcryptCost salt hlen]
    have hn : ¬ bcryptMaxCost < a.config.bcryptCost := by unfold bcryptMaxCost; omega
    rw [if_neg hn, if_pos hc]
  · intro cfg h
    simp [New, h]

/-- C4 amended witness: the cost policy evaluated at concrete costs. -/
theorem C4_amended_witness :
    HashPasswordStatic "pw" 35 1 = .error (.bcryptInvalidCost 35) ∧
    HashPasswordStatic "pw" 0 1 = .ok (bcryptEncode 12 1 "pw") ∧
    HashPasswordStatic "pw" 2 1 = .ok (bcryptEncode bcryptDefaultCost 1 "pw") ∧
    HashPasswordStatic "pw" 12 1 = .ok (bcryptEncode 12 1 "pw") ∧
    HashPassword { config := { jwtSecret := "s", bcryptCost := 40 }, users := [] } "pw" 1 =
      .error (.bcryptInvalidCost 40) ∧
    HashPassword { config := { jwtSecret := "s", bcryptCost := 3 }, users := [] } "pw" 1 =
      .ok (bcryptEncode bcryptDefaultCost 1 "pw") ∧
    (New { jwtSecret := "s" }).config.bcryptCost = 12 :=
  ⟨C4_amended_cost_policy.1 "pw" 35 1 (by decide) (by decide),
   C4_amended_cost_policy.2.1 "pw" 1 (by decide),
   C4_amended_cost_policy.2.2.1 "pw" 2 1 (by decide) (by decide) (by decide),
   C4_amended_cost_policy.2.2.2.1 "pw" 12 1 (by decide) (by decide) (by decide),
   C4_amended_cost_policy.2.2.2.2.1 _ "pw" 1 (by decide) (by decide),
   C4_amended_cost_policy.2.2.2.2.2.1 _ "pw" 1 (by decide) (by decide),
   C4_amended_cost_policy.2.2.2.2.2.2 _ rfl⟩


/-- C5: a valid, unexpired refresh token whose subject has since been
deleted from the directory is refused by RefreshToken with ErrUserNotFound
(and no token pair is produced): the subject is re-resolved through the
directory on every refresh. -/
theorem C5_deleted_user_cannot_refresh (aIss aCur : AuthKit) (u : User)
    (nowIss now : Int) (jti jA jR : String)
    (hsec : aCur.config.jwtSecret = aIss.config.jwtSecret)
    (hdel : lookupUser aCur.users u.id = none)
    (h1 : nowIss ≤ now)
    (h2 : now < nowIss + Int.tdiv (refreshDurationNs aIss.config) nsPerSecond) :
    RefreshToken aCur (GenerateRefreshToken aIss u nowIss jti) now jA jR =
      .error .errUserNotFound := by
  have htok : GenerateRefreshToken aIss u nowIss jti =
      Token.signed .HS256
        (refreshPayload u.id jti nowIss
          (nowIss + Int.tdiv (refreshDurationNs aIss.config) nsPerSecond) nowIss)
        ⟨.HS256, aCur.config.jwtSecret,
         refreshPayload u.id jti nowIss
           (nowIss + Int.tdiv (refreshDurationNs aIss.config) nsPerSecond) nowIss⟩ := by
    rw [hsec]
    rfl
  rw [htok]
  rw [RefreshToken_parse_ok aCur _
    ⟨"authkit-refresh", u.id, ["authkit-refresh"],
     some (nowIss + Int.tdiv (refreshDurationNs aIss.config) nsPerSecond),
     some nowIss, some nowIss, jti⟩
    now jA jR (decodeRegistered_refreshPayload _ _ _ _ _) (expFail_false h2) (nbfFail_false h1)]
  simp only [GetUserByID]
  rw [hdel]

/-- C5 witness: on the fixture state with the fixture user deleted, refresh
with the user's still-valid refresh token fails with user-not-found. -/
theorem C5_witness :
    lookupUser sampleAuthDeleted.users "u1" = none ∧
    RefreshToken sampleAuthDeleted (GenerateRefreshToken sampleAuth sampleUser 0 "jr")
      10 "x" "y" = .error .errUserNotFound :=
  ⟨rfl, C5_deleted_user_cannot_refresh sampleAuth sampleAuthDeleted sampleUser 0 10 "jr" "x" "y"
    rfl rfl (by decide) (by decide)⟩

/-- C6: registering an email that an existing live record already carries
fails with ErrUserAlreadyExists and leaves the directory state literally
unchanged; and registration (in every branch) preserves email uniqueness
across all live records. -/
theorem C6_duplicate_email_rejected :
    (∀ (a : AuthKit) (req : RegisterRequest) (now : Int) (fid : String) (salt : Nat)
       (k : String) (u : User), (k, u) ∈ a.users → u.email = req.email →
      RegisterUser a req now fid salt = (.error .errUserAlreadyExists, a)) ∧
    (∀ (a : AuthKit) (req : RegisterRequest) (now : Int) (fid : String) (salt : Nat),
      emailsUnique a.users → emailsUnique (RegisterUser a req now fid salt).2.users) := by
  constructor
  · intro a req now fid salt k u hmem hemail
    have hdup : (a.users.any fun kv => kv.2.email == req.email) = true :=
      List.any_eq_true.mpr ⟨(k, u), hmem, by simp [hemail]⟩
    simp [RegisterUser, hdup]
  · intro a req now fid salt huniq
    by_cases hdup : (a.users.any fun kv => kv.2.email == req.email) = true
    · have hst : (RegisterUser a req now fid salt).2 = a := by simp [RegisterUser, hdup]
      rw [hst]
      exact huniq
    · have hdupf : (a.users.any fun kv => kv.2.email == req.email) = false := by
        simpa using hdup
      cases hh : HashPassword a req.password salt with
      | error e =>
        have hst : (RegisterUser a req now fid salt).2 = a := by
          simp [RegisterUser, hdupf, hh]
        rw [hst]
        exact huniq
      | ok hp =>
        have hnone : ∀ kv ∈ a.users, kv.2.email ≠ req.email := by
          intro kv hkv heq
          have hb : (kv.2.email == req.email) = true := by
            rw [heq]
            exact beq_self_eq_true req.email
          have h5 : (a.users.any fun kv => kv.2.email == req.email) = true :=
            List.any_eq_true.mpr ⟨kv, hkv, hb⟩
          rw [hdupf] at h5
          cases h5
        simp only [RegisterUser, hdupf, hh]
        unfold emailsUnique at huniq ⊢
        simp only [Bool.false_eq_true, if_false]
        rw [List.pairwise_append]
        refine ⟨huniq, List.pairwise_singleton _ _, ?_⟩
        intro x hx y hy
        rw [List.mem_singleton] at hy
        subst hy
        exact hnone x hx

/-- C6 witness: registering the fixture user's email again fails and leaves
the fixture state unchanged; registering a fresh email preserves email
uniqueness. -/
theorem C6_witness :
    RegisterUser sampleAuth
        { email := "alice@example.com", password := "pw2", name := "Mallory" } 3 "u2" 6 =
      (.error .errUserAlreadyExists, sampleAuth) ∧
    emailsUnique (RegisterUser sampleAuth
        { email := "bob@example.com", password := "pw2", name := "Bob" } 3 "u2" 6).2.users :=
  ⟨C6_duplicate_email_rejected.1 sampleAuth _ 3 "u2" 6 "u1" sampleUser (by simp [sampleAuth]) rfl,
   C6_duplicate_email_rejected.2 sampleAuth _ 3 "u2" 6
     (by simp [emailsUnique, sampleAuth])⟩

/-- C7: when the user exists, UpdateUser succeeds and replaces the stored
record by one whose id, email, password hash and creation timestamp are
unchanged and whose last-updated time is stamped with now (so at most name,
role, permissions, metadata and the update stamp change); and entries of the
update map under keys other than the four recognized ones never influence
the result — filtering them out gives the same outcome, with no error. -/
theorem C7_update_frame :
    (∀ (a : AuthKit) (uid : String) (updates : Payload) (now : Int) (u : User),
      lookupUser a.users uid = some u →
      ∃ u2, UpdateUser a uid updates now =
          (.ok (userToUserInfo u2), { a with users := setUser a.users uid u2 }) ∧
        u2.id = u.id ∧ u2.email = u.email ∧ u2.password = u.password ∧
        u2.createdAt = u.createdAt ∧ u2.updatedAt = now) ∧
    (∀ (a : AuthKit) (uid : String) (updates : Payload) (now : Int),
      UpdateUser a uid updates now =
        UpdateUser a uid (updates.filter fun kv => knownUpdateKeys.contains kv.1) now) := by
  constructor
  · intro a uid updates now u hu
    refine ⟨{ applyUpdates u updates with updatedAt := now }, ?_, ?_, ?_, ?_, ?_, rfl⟩
    · simp [UpdateUser, hu]
    · exact applyUpdates_id u updates
    · exact applyUpdates_email u updates
    · exact applyUpdates_password u updates
    · exact applyUpdates_createdAt u updates
  · intro a uid updates now
    unfold UpdateUser
    cases hu : lookupUser a.users uid with
    | none => rfl
    | some u =>
      dsimp only
      rw [applyUpdates_filter_known]

/-- C7 witness: an update containing one recognized and one unknown key on
the fixture user. -/
theorem C7_witness :
    ∃ u2, UpdateUser sampleAuth "u1"
        [("name", GoValue.vStr "Alice2"), ("zzz", GoValue.vInt 3)] 99 =
        (.ok (userToUserInfo u2),
         { sampleAuth with
             users := setUser sampleAuth.users "u1" u2 }) ∧
      u2.id = sampleUser.id ∧ u2.email = sampleUser.email ∧
      u2.password = sampleUser.password ∧ u2.createdAt = sampleUser.createdAt ∧
      u2.updatedAt = 99 :=
  C7_update_frame.1 sampleAuth "u1" _ 99 sampleUser rfl

/-- C8: GenerateCustomToken merges the caller's claim map over the minimal
required claim set with the caller winning on every colliding key (for a
caller map without duplicate keys, every caller entry appears, JSON
marshalled, in the signed payload); and validating the resulting token
immediately after issuance returns the caller's values — in particular a
custom token with claims role = "admin" and a one-hour expiry validates to
claims whose role is "admin". -/
theorem C8_custom_claims_merge :
    (∀ (a : AuthKit) (userID : String) (cc : List (String × GoValue)) (expiryNs now : Int)
       (jti k : String) (v : GoValue),
      (cc.map Prod.fst).Nodup → (k, v) ∈ cc →
      mapGet (GenerateCustomToken a userID cc expiryNs now jti).payload k =
        some (normJSON v)) ∧
    (∀ (a : AuthKit) (userID : String) (now : Int) (jti : String),
      ValidateToken a (GenerateCustomToken a userID
          [("role", .vStr "admin")] 3600000000000 now jti) now =
        .ok ⟨userID, "", "admin", [], [], "authkit", "", ["authkit-users"],
             some (now + 3600), some now, some now, jti⟩) := by
  constructor
  · intro a userID cc expiryNs now jti k v hnd hmem
    exact mapGet_foldl_insert_of_mem cc _ k v hnd hmem
  · intro a userID now jti
    exact ValidateToken_ok a
      (mapInsert (customBasePayload userID jti now (now + 3600) now) "role" (.vStr "admin"))
      ⟨userID, "", "admin", [], [], "authkit", "", ["authkit-users"],
       some (now + 3600), some now, some now, jti⟩
      now rfl (by simp [expFail]) (by simp [nbfFail])

/-- C8 witness: the merge and the round-trip evaluated on the fixture
state. -/
theorem C8_witness :
    mapGet (GenerateCustomToken sampleAuth "u9"
        [("role", GoValue.vStr "admin")] 3600000000000 5 "jc").payload "role" =
      some (normJSON (GoValue.vStr "admin")) ∧
    ValidateToken sampleAuth (GenerateCustomToken sampleAuth "u9"
        [("role", GoValue.vStr "admin")] 3600000000000 5 "jc") 5 =
      .ok ⟨"u9", "", "admin", [], [], "authkit", "", ["authkit-users"],
           some 3605, some 5, some 5, "jc"⟩ :=
  ⟨C8_custom_claims_merge.1 sampleAuth "u9" _ 3600000000000 5 "jc" "role" (.vStr "admin")
     (by simp) (by simp),
   C8_custom_claims_merge.2 sampleAuth "u9" 5 "jc"⟩

/-- C9: when the configured TokenExpiry string does not parse as a duration,
LoginUser (on correct credentials) and RefreshToken (on a valid refresh
token for an existing user) still succeed, but report ExpiresIn = 0 — the
error of time.ParseDuration is discarded and the zero duration used — while
the access token they return carries expires-at = issuance + 86400 seconds,
the 24-hour fallback of GenerateAccessToken: the reported lifetime and the
actual token lifetime disagree. -/
theorem C9_misreported_expiry :
    (∀ (a : AuthKit) (email pw : String) (now : Int) (j1 j2 : String) (u : User),
      parseDuration a.config.tokenExpiry = none →
      findUserByEmail a.users email = some u →
      ComparePassword u.password pw = true →
      LoginUser a email pw now j1 j2 =
        .ok { accessToken := GenerateAccessToken a u now j1,
              refreshToken := GenerateRefreshToken a u now j2,
              tokenType := "Bearer", expiresIn := 0,
              user := userToUserInfo u } ∧
      mapGet (GenerateAccessToken a u now j1).payload "exp" =
        some (.vInt (now + 86400))) ∧
    (∀ (a : AuthKit) (t : Token) (now : Int) (j1 j2 : String) (rc : RegisteredClaims) (u : User),
      parseDuration a.config.tokenExpiry = none →
      parseRefreshClaims a.config.jwtSecret now t = .ok rc →
      lookupUser a.users rc.sub = some u →
      RefreshToken a t now j1 j2 =
        .ok { accessToken := GenerateAccessToken a u now j1,
              refreshToken := GenerateRefreshToken a u now j2,
              tokenType := "Bearer", expiresIn := 0,
              user := userToUserInfo u } ∧
      mapGet (GenerateAccessToken a u now j1).payload "exp" =
        some (.vInt (now + 86400))) := by
  have hexp : ∀ (a : AuthKit) (u : User) (now : Int) (j1 : String),
      parseDuration a.config.tokenExpiry = none →
      mapGet (GenerateAccessToken a u now j1).payload "exp" =
        some (.vInt (now + 86400)) := by
    intro a u now j1 hparse
    have hd : accessDurationNs a.config = 24 * 3600 * nsPerSecond := by
      simp [accessDurationNs, hparse]
    show mapGet (accessPayload u j1 now
        (now + Int.tdiv (accessDurationNs a.config) nsPerSecond) now) "exp" = _
    rw [mapGet_accessPayload_exp, hd,
      show Int.tdiv (24 * 3600 * nsPerSecond) nsPerSecond = 86400 from by decide]
  have hzero : ∀ a : AuthKit, parseDuration a.config.tokenExpiry = none →
      expiresInSeconds a.config = 0 := by
    intro a hparse
    simp [expiresInSeconds, hparse]
  constructor
  · intro a email pw now j1 j2 u hparse hfind hcmp
    refine ⟨?_, hexp a u now j1 hparse⟩
    rw [show (0 : Int) = expiresInSeconds a.config from (hzero a hparse).symm]
    simp [LoginUser, hfind, hcmp]
  · intro a t now j1 j2 rc u hparse hpr hl
    refine ⟨?_, hexp a u now j1 hparse⟩
    rw [show (0 : Int) = expiresInSeconds a.config from (hzero a hparse).symm]
    simp only [RefreshToken, hpr, GetUserByID, hl]

/-- C9 witness: fixture state whose TokenExpiry is the unparsable string
"soon": login reports ExpiresIn 0 while the minted access token expires at
issuance + 86400. -/
theorem C9_witness :
    parseDuration sampleAuthBadExpiry.config.tokenExpiry = none ∧
    (LoginUser sampleAuthBadExpiry "alice@example.com" "password123" 7 "j1" "j2" =
        .ok { accessToken := GenerateAccessToken sampleAuthBadExpiry sampleUser 7 "j1",
              refreshToken := GenerateRefreshToken sampleAuthBadExpiry sampleUser 7 "j2",
              tokenType := "Bearer", expiresIn := 0,
              user := userToUserInfo sampleUser } ∧
      mapGet (GenerateAccessToken sampleAuthBadExpiry sampleUser 7 "j1").payload "exp" =
        some (.vInt (7 + 86400))) ∧
    (RefreshToken sampleAuthBadExpiry
          (GenerateRefreshToken sampleAuthBadExpiry sampleUser 0 "jr") 10 "x" "y" =
        .ok { accessToken := GenerateAccessToken sampleAuthBadExpiry sampleUser 10 "x",
              refreshToken := GenerateRefreshToken sampleAuthBadExpiry sampleUser 10 "y",
              tokenType := "Bearer", expiresIn := 0,
              user := userToUserInfo sampleUser } ∧
      mapGet (GenerateAccessToken sampleAuthBadExpiry sampleUser 10 "x").payload "exp" =
        some (.vInt (10 + 86400))) :=
  ⟨rfl,
   C9_misreported_expiry.1 sampleAuthBadExpiry "alice@example.com" "password123" 7 "j1" "j2"
     sampleUser rfl rfl rfl,
   C9_misreported_expiry.2 sampleAuthBadExpiry _ 10 "x" "y"
     ⟨"authkit-refresh", "u1", ["authkit-refresh"], some 7200, some 0, some 0, "jr"⟩
     sampleUser rfl rfl rfl⟩

/-- C10: UpdateUser applies the "permissions" entry only when its value has
the dynamic Go type []string (vStrList): when present with that type the
stored permission set becomes the given list, and for a value of any other
dynamic type — in particular the []interface-list a JSON decoder produces —
the stored permission set is unchanged (and no error is reported). -/
theorem C10_permissions_dynamic_type :
    ∀ (a : AuthKit) (uid : String) (updates : Payload) (now : Int) (u : User),
      lookupUser a.users uid = some u →
      ∃ u2, UpdateUser a uid updates now =
          (.ok (userToUserInfo u2), { a with users := setUser a.users uid u2 }) ∧
        ((∀ xs, mapGet updates "permissions" ≠ some (.vStrList xs)) →
          u2.permissions = u.permissions) ∧
        (∀ xs, mapGet updates "permissions" = some (.vStrList xs) →
          u2.permissions = xs) := by
  intro a uid updates now u hu
  refine ⟨{ applyUpdates u updates with updatedAt := now }, by simp [UpdateUser, hu], ?_, ?_⟩
  · intro hno
    have hp := applyUpdates_permissions u updates
    show (applyUpdates u updates).permissions = u.permissions
    rw [hp]
    cases hm : mapGet updates "permissions" with
    | none => rfl
    | some v =>
      cases v with
      | vStrList xs => exact absurd hm (hno xs)
      | vStr s => rfl
      | vInt n => rfl
      | vBool b => rfl
      | vList l => rfl
      | vMap m => rfl
      | vNull => rfl
  · intro xs hm
    show (applyUpdates u updates).permissions = xs
    rw [applyUpdates_permissions, hm]

/-- C10 witness: a permissions value of dynamic type []interface (the JSON
decoder's representation) is ignored on the fixture user, while a []string
value is applied. -/
theorem C10_witness :
    (∃ u2, UpdateUser sampleAuth "u1"
        [("permissions", GoValue.vList [.vStr "read", .vStr "write"])] 99 =
        (.ok (userToUserInfo u2),
         { sampleAuth with
             users := setUser sampleAuth.users "u1" u2 }) ∧
      ((∀ xs, mapGet [("permissions", GoValue.vList [.vStr "read", .vStr "write"])]
          "permissions" ≠ some (.vStrList xs)) → u2.permissions = sampleUser.permissions) ∧
      (∀ xs, mapGet [("permissions", GoValue.vList [.vStr "read", .vStr "write"])]
          "permissions" = some (.vStrList xs) → u2.permissions = xs)) ∧
    (∃ u3, UpdateUser sampleAuth "u1"
        [("permissions", GoValue.vStrList ["read", "write"])] 99 =
        (.ok (userToUserInfo u3),
         { sampleAuth with
             users := setUser sampleAuth.users "u1" u3 }) ∧
      ((∀ xs, mapGet [("permissions", GoValue.vStrList ["read", "write"])]
          "permissions" ≠ some (.vStrList xs)) → u3.permissions = sampleUser.permissions) ∧
      (∀ xs, mapGet [("permissions", GoValue.vStrList ["read", "write"])]
          "permissions" = some (.vStrList xs) → u3.permissions = xs)) :=
  ⟨C10_permissions_dynamic_type sampleAuth "u1" _ 99 sampleUser rfl,
   C10_permissions_dynamic_type sampleAuth "u1" _ 99 sampleUser rfl⟩

end Authkit
